import Mathlib

/-!
Verification development for the Forexbotly repository.

The file embeds the two source files shallowly in Lean:

* `backtester.py` — class `BacktestingFramework` with `set_risk_strategy` and
  `run_backtest` — is modelled by `set_risk_strategy`, `stepEntry`, `stepExit`,
  `stepBar`, `runBars` and `run_backtest` below.  Python floats are modelled
  by rationals; a Python exception is an `Except` error value
  (`PyError.zeroDivisionError` for an `int / 0`, `PyError.typeError` for an
  arithmetic operation on `None`, `PyError.keyError` for a missing dict key,
  `PyError.indexError` for `iloc[-1]` on an empty series).

* `app.py` — class `ForexTrading` — is modelled column-wise: a DataFrame is a
  list of named columns whose cells are `Option ℚ` (`none` is a float NaN).
  In-place mutation of a DataFrame argument is modelled by returning the state
  of the caller's frame after the call.
-/

inductive PyError where
  | zeroDivisionError
  | typeError
  | keyError
  | indexError
deriving DecidableEq, Repr

instance {ε α : Type} [DecidableEq ε] [DecidableEq α] : DecidableEq (Except ε α) := fun a b =>
  match a, b with
  | .error e, .error f => if h : e = f then .isTrue (by rw [h]) else .isFalse (by intro hc; cases hc; exact h rfl)
  | .ok x, .ok y => if h : x = y then .isTrue (by rw [h]) else .isFalse (by intro hc; cases hc; exact h rfl)
  | .error _, .ok _ => .isFalse (by intro hc; cases hc)
  | .ok _, .error _ => .isFalse (by intro hc; cases hc)

/-- One row of the signal DataFrame consumed by `run_backtest`
(columns `long_entry`, `long_exit`, `close`; `astype(int)` followed by Python
truthiness makes the two signal columns booleans). -/
structure Row where
  long_entry : Bool
  long_exit : Bool
  close : ℚ
deriving DecidableEq, Repr

instance : Inhabited Row := ⟨⟨false, false, 0⟩⟩

/-- The fields of `self` read or written by `run_backtest`:
`self.risk_factor` (`None` for the extreme strategy) and `self.is_extreme`. -/
structure RiskConfig where
  risk_factor : Option ℚ
  is_extreme : Bool
deriving DecidableEq, Repr

/-- Embedding of `BacktestingFramework.set_risk_strategy`: the
`risk_mapping` dict lookup (`KeyError` on an unknown name) together with
`self.is_extreme = risk_strategy == 'extreme'`. -/
def set_risk_strategy (name : String) : Except PyError RiskConfig :=
  if name = "safe" then .ok ⟨some (1/100), false⟩
  else if name = "moderate" then .ok ⟨some (1/10), false⟩
  else if name = "risky" then .ok ⟨some (1/5), false⟩
  else if name = "extreme" then .ok ⟨none, true⟩
  else .error .keyError

/-- The loop-local state of `run_backtest` (`balance`, `position_size`,
`prev_position`, `won_trades`, `total_trades`) together with the instance
field `self.risk_factor`, which line 69 of the source may reassign. -/
structure LoopState where
  balance : ℚ
  position_size : ℚ
  prev_position : Bool
  won_trades : ℕ
  total_trades : ℕ
  risk_factor : Option ℚ
deriving DecidableEq, Repr

/-- Reference price used on an exit bar: `trades.loc[trades.index[idx - 1], 'close']`.
The frame has a RangeIndex, so for `idx ≥ 1` this is the previous row's close,
while for `idx = 0` Python's negative positional index `-1` wraps around to the
LAST row of the frame. -/
def prev_close_ref (trades : List Row) (i : ℕ) : ℚ :=
  (trades.getD (if i = 0 then trades.length - 1 else i - 1) default).close

/-- Entry half of the loop body (source lines 53–57): on `long_entry` while not
in a position, size the position — `min(balance, 1000)` under extreme,
otherwise `balance * self.risk_factor` (a `TypeError` if the factor is `None`) —
debit the balance, mark in-position and count the trade. -/
def stepEntry (ex : Bool) (row : Row) (st : LoopState) : Except PyError LoopState :=
  if row.long_entry && !st.prev_position then
    if ex then
      .ok ⟨st.balance - min st.balance 1000, min st.balance 1000, true,
           st.won_trades, st.total_trades + 1, st.risk_factor⟩
    else
      match st.risk_factor with
      | none => .error .typeError
      | some r =>
        .ok ⟨st.balance - st.balance * r, st.balance * r, true,
             st.won_trades, st.total_trades + 1, st.risk_factor⟩
  else .ok st

/-- Exit half of the loop body (source lines 59–69): on `long_exit` while in a
position, realize `pnl = position_size * (row.close / prev_close_ref - 1)`,
credit `position_size + pnl`, clear the position; on a winning trade count it
and, under extreme only, reassign `self.risk_factor = min(self.risk_factor * 2, 1000)`
— a `TypeError` when the factor is still `None`. -/
def stepExit (ex : Bool) (trades : List Row) (i : ℕ) (row : Row) (st : LoopState) :
    Except PyError LoopState :=
  if row.long_exit && st.prev_position then
    if st.position_size * (row.close / prev_close_ref trades i - 1) > 0 then
      if ex then
        match st.risk_factor with
        | none => .error .typeError
        | some r =>
          .ok ⟨st.balance + st.position_size +
                 st.position_size * (row.close / prev_close_ref trades i - 1),
               0, false, st.won_trades + 1, st.total_trades, some (min (r * 2) 1000)⟩
      else
        .ok ⟨st.balance + st.position_size +
               st.position_size * (row.close / prev_close_ref trades i - 1),
             0, false, st.won_trades + 1, st.total_trades, st.risk_factor⟩
    else
      .ok ⟨st.balance + st.position_size +
             st.position_size * (row.close / prev_close_ref trades i - 1),
           0, false, st.won_trades, st.total_trades, st.risk_factor⟩
  else .ok st

/-- One iteration of `for idx, row in trades.iterrows()`: the entry check is
evaluated first, then the exit check on the state it produced (so a same-bar
entry immediately enables a same-bar exit). -/
def stepBar (ex : Bool) (trades : List Row) (i : ℕ) (row : Row) (st : LoopState) :
    Except PyError LoopState := do
  let st1 ← stepEntry ex row st
  stepExit ex trades i row st1

/-- The `iterrows` loop of `run_backtest`, with `i` the positional index of the
first row of the remaining list `rows` inside the full frame `trades`. -/
def runBars (ex : Bool) (trades : List Row) : ℕ → List Row → LoopState → Except PyError LoopState
  | _, [], st => .ok st
  | i, row :: rest, st => do
    let st1 ← stepBar ex trades i row st
    runBars ex trades (i + 1) rest st1

/-- Result dictionary of `run_backtest`.  The source's `win_ratio` key is
named `win_rate` here. -/
structure BacktestResult where
  won_trades : ℕ
  total_trades : ℕ
  win_rate : ℚ
  final_balance : ℚ
  profit : ℚ
deriving DecidableEq, Repr

/-- State of the loop variables at the top of `run_backtest`. -/
def init_state (b : ℚ) (cfg : RiskConfig) : LoopState :=
  ⟨b, 0, false, 0, 0, cfg.risk_factor⟩

/-- Embedding of `BacktestingFramework.run_backtest` applied to an
already-computed signal frame.  After the loop the source evaluates
`win_ratio = won_trades / total_trades` with no guard, so a run with zero
trades raises `ZeroDivisionError`.  The returned `RiskConfig` is the state of
the instance fields after the call (line 69 may have reassigned
`self.risk_factor`). -/
def run_backtest (cfg : RiskConfig) (initial_balance : ℚ) (trades : List Row) :
    Except PyError (BacktestResult × RiskConfig) := do
  let st ← runBars cfg.is_extreme trades 0 trades (init_state initial_balance cfg)
  if st.total_trades = 0 then .error .zeroDivisionError
  else .ok (⟨st.won_trades, st.total_trades,
              (st.won_trades : ℚ) / (st.total_trades : ℚ),
              st.balance, st.balance - initial_balance⟩,
            ⟨st.risk_factor, cfg.is_extreme⟩)

/-- Position size taken on an entry bar at balance `b`
(`balance * self.risk_factor if not self.is_extreme else min(balance, 1000)`). -/
def entrySize (cfg : RiskConfig) (b : ℚ) : ℚ :=
  if cfg.is_extreme then min b 1000 else b * cfg.risk_factor.getD 0

/-! ## Column-wise DataFrame model for `app.py` -/

/-- A DataFrame column: one cell per bar, `none` modelling a float NaN. -/
abbrev Col : Type := List (Option ℚ)

/-- A DataFrame: named columns in insertion order. -/
abbrev Df : Type := List (String × Col)

/-- Names of the columns of a frame, in order. -/
def colNames (df : Df) : List String := df.map Prod.fst

/-- Reading a column, `df[c]`. -/
def getCol (df : Df) (c : String) : Col :=
  match df.find? (fun p => p.1 = c) with
  | some p => p.2
  | none => []

/-- Writing a column, `df[c] = v`: replace an existing column in place,
append a new one at the end. -/
def setCol (df : Df) (c : String) (v : Col) : Df :=
  if c ∈ colNames df then
    df.map (fun p => if p.1 = c then (c, v) else p)
  else df ++ [(c, v)]

/-- Dropping columns, `df.drop(columns=cs)`. -/
def dropCols (df : Df) (cs : List String) : Df :=
  df.filter (fun p => decide (p.1 ∉ cs))

/-- Elementwise subtraction of two columns; NaN propagates. -/
def osub : Option ℚ → Option ℚ → Option ℚ
  | some a, some b => some (a - b)
  | _, _ => none

/-- Absolute value of a cell; NaN propagates. -/
def oabs : Option ℚ → Option ℚ
  | some a => some |a|
  | none => none

/-- Pairwise maximum with pandas `skipna=True` semantics: a NaN operand is
ignored, and the result is NaN only when both operands are. -/
def omax2 : Option ℚ → Option ℚ → Option ℚ
  | some a, some b => some (max a b)
  | some a, none => some a
  | none, some b => some b
  | none, none => none

/-- `series.shift(1)`: NaN in the first cell, previous values after it,
length preserved. -/
def shift1 (c : Col) : Col := (none :: c).take c.length

/-- Elementwise NaN-aware comparison `a < b` on cells: a comparison with NaN
is False, exactly as for Python floats. -/
def oltB : Option ℚ → Option ℚ → Bool
  | some a, some b => decide (a < b)
  | _, _ => false

/-- Elementwise NaN-aware comparison `a > b` on cells. -/
def ogtB : Option ℚ → Option ℚ → Bool
  | some a, some b => decide (a > b)
  | _, _ => false

/-- `series.rolling(window=w).mean()` evaluated at the last index only
(`.iloc[-1]`): NaN unless the series holds at least `w` cells and the last `w`
cells are all numbers. -/
def rollingMeanLastOpt (w : ℕ) (c : Col) : Option ℚ :=
  if c.length < w then none
  else
    let win := c.drop (c.length - w)
    if win.any (fun o => o = none) then none
    else some ((win.map (fun o => o.getD 0)).sum / (w : ℚ))

/-- `series.rolling(window=w).mean()` as a whole column: at index `i` the
mean of cells `i+1-w .. i`, NaN while the window is incomplete or holds a NaN. -/
def rollingMeanCol (w : ℕ) (c : Col) : Col :=
  (List.range c.length).map (fun i =>
    if i + 1 < w then none
    else
      let win := (c.take (i + 1)).drop (i + 1 - w)
      if win.any (fun o => o = none) then none
      else some ((win.map (fun o => o.getD 0)).sum / (w : ℚ)))

/-- The `high_low` temporary column of `_calculate_volatility`. -/
def high_low_col (high low : Col) : Col := List.zipWith osub high low

/-- The `high_prev_close` temporary column: `abs(high - close.shift(1))`. -/
def high_pc_col (high close : Col) : Col :=
  (List.zipWith osub high (shift1 close)).map oabs

/-- The `low_prev_close` temporary column: `abs(low - close.shift(1))`. -/
def low_pc_col (low close : Col) : Col :=
  (List.zipWith osub low (shift1 close)).map oabs

/-- The `true_range` column: the row-wise `skipna` maximum of the three
temporary columns, `df[['high_low','high_prev_close','low_prev_close']].max(axis=1)`. -/
def true_range_col (high low close : Col) : Col :=
  List.zipWith omax2 (List.zipWith omax2 (high_low_col high low) (high_pc_col high close))
    (low_pc_col low close)

/-- The five temporary column names used by `_calculate_volatility`. -/
def volTemps : List String :=
  ["previous_close", "high_low", "high_prev_close", "low_prev_close", "true_range"]

/-- Embedding of `ForexTrading._calculate_volatility` (drop the leading
underscore).  The five temporary columns are written into the caller's frame,
the ATR is read off with `.iloc[-1]` (an `IndexError` on an empty `true_range`
series, in which case the temporaries are never dropped), and finally the
temporaries are dropped in place.  The second component is the state of the
caller's frame after the call. -/
def calculate_volatility (df : Df) : Except PyError (Option ℚ) × Df :=
  let close := getCol df "close"
  let high := getCol df "high"
  let low := getCol df "low"
  let df5 := setCol (setCol (setCol (setCol (setCol df "previous_close" (shift1 close))
    "high_low" (high_low_col high low)) "high_prev_close" (high_pc_col high close))
    "low_prev_close" (low_pc_col low close)) "true_range" (true_range_col high low close)
  let tr := true_range_col high low close
  if tr.length = 0 then (.error .indexError, df5)
  else (.ok (rollingMeanLastOpt 14 tr), dropCols df5 volTemps)

/-- Market stage labels returned by `_calculate_market_stage`. -/
inductive Stage where
  | Bull
  | Bear
  | Consolidation
deriving DecidableEq, Repr

/-- Embedding of the stage determination of `ForexTrading._calculate_market_stage`:
compare the last values of the 50-bar and 200-bar rolling means of `close`
(`.iloc[-1]` raises `IndexError` on an empty series; a NaN mean makes both
comparisons False, selecting the `else` branch `Consolidation`). -/
def calculate_market_stage (closes : List ℚ) : Except PyError Stage :=
  if closes.length = 0 then .error .indexError
  else
    let short_ma := rollingMeanLastOpt 50 (closes.map some)
    let long_ma := rollingMeanLastOpt 200 (closes.map some)
    .ok (if ogtB short_ma long_ma then .Bull
         else if oltB short_ma long_ma then .Bear
         else .Consolidation)

/-- Addition of two cells; NaN propagates. -/
def oadd : Option ℚ → Option ℚ → Option ℚ
  | some a, some b => some (a + b)
  | _, _ => none

/-- Division of a cell by a number. -/
def odivc (a : Option ℚ) (q : ℚ) : Option ℚ := a.map (fun x => x / q)

/-- Embedding of `ForexTrading.calculate_support_resistance` (default
`window=14`): pivot = (high+low+close)/3, range = high−low,
support/resistance = rolling mean of pivot ∓ range. -/
def calculate_support_resistance (high low close : Col) : Col × Col :=
  let pivot := (List.zipWith oadd (List.zipWith oadd high low) close).map (fun a => odivc a 3)
  let trading_range := List.zipWith osub high low
  (rollingMeanCol 14 (List.zipWith osub pivot trading_range),
   rollingMeanCol 14 (List.zipWith oadd pivot trading_range))

/-- Interface of the external `talib` indicator library used by
`bull_strategy`: `SMA(close,20)`, `EMA(close,20)`, `RSI(close,14)`,
`BBANDS(close,20)` (upper, middle, lower) and
`STOCH(high,low,close,...)` (slowk, slowd).  The library is an external
collaborator, so its functions are parameters of the embedding. -/
structure Talib where
  sma : Col → Col
  ema : Col → Col
  rsi : Col → Col
  bbands : Col → Col × Col × Col
  stoch : Col → Col → Col → Col × Col

/-- The `long_entry` expression of `bull_strategy` at one bar, with Python's
`&` chain association. -/
def bull_entry_row (c s e r lb k d : Option ℚ) : Bool :=
  ((((ogtB c s && ogtB c e) && oltB r (some 30)) && ogtB c lb) && oltB k (some 20)) &&
    oltB d (some 20)

/-- The `long_exit` expression of `bull_strategy` at one bar, parenthesised
exactly as Python parses lines 222–228 of `app.py`: `&` binds tighter than
`|`, so the two stochastic comparisons form one conjunct of the `|` chain. -/
def bull_exit_row (c s e r ub k d res : Option ℚ) : Bool :=
  ((((oltB c s || oltB c e) || ogtB r (some 70)) || ogtB c ub) ||
      (ogtB k (some 80) && ogtB d (some 80))) ||
    ogtB c res

/-- A cell holding a Python boolean. -/
def ofBool (b : Bool) : Option ℚ := some (if b then 1 else 0)

/-- Embedding of `ForexTrading.bull_strategy`.  All twelve derived columns are
written into the frame received as argument with `data[...] = ...`
(in-place mutation of the caller's DataFrame); the returned frame is both the
return value and the state of the caller's frame after the call.  The signal
columns combine the indicator columns elementwise. -/
def bull_strategy (ta : Talib) (df : Df) : Df :=
  let close := getCol df "close"
  let high := getCol df "high"
  let low := getCol df "low"
  let sma := ta.sma close
  let ema := ta.ema close
  let rsi := ta.rsi close
  let bb := ta.bbands close
  let kd := ta.stoch high low close
  let sr := calculate_support_resistance high low close
  let n := close.length
  let entry := (List.range n).map (fun t => ofBool (bull_entry_row (close.getD t none)
    (sma.getD t none) (ema.getD t none) (rsi.getD t none) (bb.2.2.getD t none)
    (kd.1.getD t none) (kd.2.getD t none)))
  let exit_col := (List.range n).map (fun t => ofBool (bull_exit_row (close.getD t none)
    (sma.getD t none) (ema.getD t none) (rsi.getD t none) (bb.1.getD t none)
    (kd.1.getD t none) (kd.2.getD t none) (sr.2.getD t none)))
  setCol (setCol (setCol (setCol (setCol (setCol (setCol (setCol (setCol (setCol (setCol
    (setCol df "SMA" sma) "EMA" ema) "RSI" rsi) "upper_bb" bb.1) "middle_bb" bb.2.1)
    "lower_bb" bb.2.2) "slowk" kd.1) "slowd" kd.2) "support" sr.1) "resistance" sr.2)
    "long_entry" entry) "long_exit" exit_col

/-- The twelve column names `bull_strategy` writes, in writing order. -/
def bullCols : List String :=
  ["SMA", "EMA", "RSI", "upper_bb", "middle_bb", "lower_bb", "slowk", "slowd",
   "support", "resistance", "long_entry", "long_exit"]

/-- One True-Range cell as the spec reads it: undefined (NaN) when the
previous close is undefined, otherwise max(high-low, |high-prevClose|,
|low-prevClose|). -/
def tr_cell (h l : ℚ) : Option ℚ → Option ℚ
  | none => none
  | some pc => some (max (h - l) (max |h - pc| |l - pc|))

/-- Refinement definition following the SPEC's words (not the source): the
per-bar True Range with the first bar excluded (undefined, not substituted),
to be compared with the source's `true_range_col`. -/
def true_range_spec_col (high low close : List ℚ) : Col :=
  List.zipWith (fun p pc => tr_cell p.1 p.2 pc) (high.zip low) (shift1 (close.map some))

/-- Identity instantiation of the external indicator library, used to
evaluate the embedding at concrete inputs. -/
def talibId : Talib :=
  ⟨fun c => c, fun c => c, fun c => c, fun c => (c, c, c), fun _ _ c => (c, c)⟩

/-- A concrete three-column OHLC frame with a single bar. -/
def ohlcDf : Df := [("close", [some 100]), ("high", [some 101]), ("low", [some 99])]

/-- Fourteen-bar constant columns used to evaluate the ATR pipeline. -/
def exHighs : List ℚ := [2, 2, 2, 2, 2, 2, 2, 2, 2, 2, 2, 2, 2, 2]

/-- Low column of the fourteen-bar example. -/
def exLows : List ℚ := [0, 0, 0, 0, 0, 0, 0, 0, 0, 0, 0, 0, 0, 0]

/-- Close column of the fourteen-bar example. -/
def exCloses : List ℚ := [1, 1, 1, 1, 1, 1, 1, 1, 1, 1, 1, 1, 1, 1]

/-! ## Helper lemmas about the backtest loop -/

theorem stepBar_no_signal (ex : Bool) (trades : List Row) (i : ℕ) (row : Row) (st : LoopState)
    (he : row.long_entry = false) (hx : row.long_exit = false) :
    stepBar ex trades i row st = .ok st := by
  simp [stepBar, stepEntry, stepExit, he, hx, Bind.bind, Except.bind]

theorem runBars_no_signal (ex : Bool) (trades : List Row) (rows : List Row) (i : ℕ)
    (st : LoopState) (h : ∀ r ∈ rows, r.long_entry = false ∧ r.long_exit = false) :
    runBars ex trades i rows st = .ok st := by
  induction rows generalizing i with
  | nil => rfl
  | cons row rest ih =>
    have hrow := h row (List.mem_cons_self _ _)
    simp only [runBars, stepBar_no_signal ex trades i row st hrow.1 hrow.2, Bind.bind, Except.bind]
    exact ih (i + 1) (fun r hr => h r (List.mem_cons_of_mem _ hr))

theorem stepBar_in_pos_no_exit (ex : Bool) (trades : List Row) (i : ℕ) (row : Row)
    (st : LoopState) (hx : row.long_exit = false) (hpos : st.prev_position = true) :
    stepBar ex trades i row st = .ok st := by
  simp [stepBar, stepEntry, stepExit, hx, hpos, Bind.bind, Except.bind]

theorem runBars_in_pos_no_exit (ex : Bool) (trades : List Row) (rows : List Row) (i : ℕ)
    (st : LoopState) (h : ∀ r ∈ rows, r.long_exit = false) (hpos : st.prev_position = true) :
    runBars ex trades i rows st = .ok st := by
  induction rows generalizing i with
  | nil => rfl
  | cons row rest ih =>
    simp only [runBars, stepBar_in_pos_no_exit ex trades i row st (h row (List.mem_cons_self _ _)) hpos,
      Bind.bind, Except.bind]
    exact ih (i + 1) (fun r hr => h r (List.mem_cons_of_mem _ hr))

theorem set_risk_strategy_ok_cases (name : String) (cfg : RiskConfig)
    (h : set_risk_strategy name = .ok cfg) :
    cfg = ⟨some (1/100), false⟩ ∨ cfg = ⟨some (1/10), false⟩ ∨
    cfg = ⟨some (1/5), false⟩ ∨ cfg = ⟨none, true⟩ := by
  unfold set_risk_strategy at h
  split_ifs at h <;> cases h <;> simp

theorem stepEntry_fires (cfg : RiskConfig) (row : Row) (b : ℚ)
    (hval : cfg.is_extreme = true ∨ cfg.risk_factor ≠ none) (he : row.long_entry = true) :
    stepEntry cfg.is_extreme row (init_state b cfg) =
      .ok ⟨b - entrySize cfg b, entrySize cfg b, true, 0, 1, cfg.risk_factor⟩ := by
  cases hex : cfg.is_extreme with
  | true => simp [stepEntry, init_state, entrySize, he, hex]
  | false =>
    have hrf : cfg.risk_factor ≠ none := by
      rcases hval with h | h
      · rw [hex] at h; cases h
      · exact h
    rcases Option.ne_none_iff_exists'.mp hrf with ⟨r, hrf'⟩
    simp [stepEntry, init_state, entrySize, he, hex, hrf']

theorem runBars_first_entry (cfg : RiskConfig) (trades : List Row) (b : ℚ)
    (hval : cfg.is_extreme = true ∨ cfg.risk_factor ≠ none) :
    ∀ (rows : List Row) (i : ℕ), (∀ r ∈ rows, r.long_exit = false) →
    (∃ r ∈ rows, r.long_entry = true) →
    runBars cfg.is_extreme trades i rows (init_state b cfg) =
      .ok ⟨b - entrySize cfg b, entrySize cfg b, true, 0, 1, cfg.risk_factor⟩ := by
  intro rows
  induction rows with
  | nil => intro i _ hen; simp at hen
  | cons row rest ih =>
    intro i hx hen
    cases he : row.long_entry with
    | true =>
      have hstep : stepBar cfg.is_extreme trades i row (init_state b cfg) =
          .ok ⟨b - entrySize cfg b, entrySize cfg b, true, 0, 1, cfg.risk_factor⟩ := by
        simp only [stepBar, stepEntry_fires cfg row b hval he, Bind.bind, Except.bind]
        simp [stepExit, hx row (List.mem_cons_self _ _)]
      simp only [runBars, hstep, Bind.bind, Except.bind]
      exact runBars_in_pos_no_exit _ _ _ _ _ (fun r hr => hx r (List.mem_cons_of_mem _ hr)) rfl
    | false =>
      have hstep : stepBar cfg.is_extreme trades i row (init_state b cfg) =
          .ok (init_state b cfg) :=
        stepBar_no_signal _ _ _ _ _ he (hx row (List.mem_cons_self _ _))
      simp only [runBars, hstep, Bind.bind, Except.bind]
      apply ih (i + 1) (fun r hr => hx r (List.mem_cons_of_mem _ hr))
      rcases hen with ⟨r, hr, hre⟩
      rcases List.mem_cons.mp hr with hhd | htl
      · rw [hhd] at hre; rw [hre] at he; cases he
      · exact ⟨r, htl, hre⟩

theorem stepEntry_rf (ex : Bool) (row : Row) (st st' : LoopState)
    (h : stepEntry ex row st = .ok st') : st'.risk_factor = st.risk_factor := by
  unfold stepEntry at h
  split_ifs at h
  · cases h; rfl
  · cases hrf : st.risk_factor with
    | none => rw [hrf] at h; cases h
    | some r => rw [hrf] at h; cases h; rfl
  · cases h; rfl

theorem stepExit_rf (ex : Bool) (trades : List Row) (i : ℕ) (row : Row) (st st' : LoopState)
    (hcond : ex = false ∨ st.risk_factor = none)
    (h : stepExit ex trades i row st = .ok st') : st'.risk_factor = st.risk_factor := by
  unfold stepExit at h
  split_ifs at h with hc1 hc2 hc3
  · rcases hcond with hex | hrf
    · rw [hex] at hc3; exact absurd hc3 (by decide)
    · rw [hrf] at h; cases h
  · cases h; rfl
  · cases h; rfl
  · cases h; rfl

theorem stepBar_rf (ex : Bool) (trades : List Row) (i : ℕ) (row : Row) (st st' : LoopState)
    (hcond : ex = false ∨ st.risk_factor = none)
    (h : stepBar ex trades i row st = .ok st') : st'.risk_factor = st.risk_factor := by
  simp only [stepBar, Bind.bind, Except.bind] at h
  cases he : stepEntry ex row st with
  | error e => rw [he] at h; cases h
  | ok st1 =>
    rw [he] at h
    have h1 : st1.risk_factor = st.risk_factor := stepEntry_rf ex row st st1 he
    have hcond1 : ex = false ∨ st1.risk_factor = none := by
      rcases hcond with hx | hr
      · exact Or.inl hx
      · exact Or.inr (h1.trans hr)
    exact (stepExit_rf ex trades i row st1 st' hcond1 h).trans h1

theorem runBars_rf (ex : Bool) (trades : List Row) (rows : List Row) :
    ∀ (i : ℕ) (st st' : LoopState), (ex = false ∨ st.risk_factor = none) →
    runBars ex trades i rows st = .ok st' → st'.risk_factor = st.risk_factor := by
  induction rows with
  | nil => intro i st st' _ h; cases h; rfl
  | cons row rest ih =>
    intro i st st' hcond h
    simp only [runBars, Bind.bind, Except.bind] at h
    cases hs : stepBar ex trades i row st with
    | error e => rw [hs] at h; cases h
    | ok st1 =>
      rw [hs] at h
      have h1 : st1.risk_factor = st.risk_factor := stepBar_rf ex trades i row st st1 hcond hs
      have hcond1 : ex = false ∨ st1.risk_factor = none := by
        rcases hcond with hx | hr
        · exact Or.inl hx
        · exact Or.inr (h1.trans hr)
      exact (ih (i + 1) st1 st' hcond1 h).trans h1

/-! ## Claim theorems -/

/-- C1.  The claim states that a run with `totalTrades = 0` returns a result
whose win ratio is reported as undefined instead of crashing.  The source has
no guard: `win_ratio = won_trades / total_trades` raises `ZeroDivisionError`.
At the failing input below (two bars, no signals, 'safe' risk, balance 100)
the run errors instead of returning a result. -/
theorem C1_zero_trades_zero_division :
    run_backtest ⟨some (1/100), false⟩ 100
      [⟨false, false, 100⟩, ⟨false, false, 101⟩] = .error .zeroDivisionError := by
  norm_num [run_backtest, runBars, stepBar, stepEntry, stepExit, prev_close_ref, init_state,
    Bind.bind, Except.bind]

/-- C2.  The claim states that under the 'extreme' strategy the risk factor is
doubled (capped at 1000) after each winning trade, so that a second entry uses
the post-win adjusted sizing.  In the source `self.risk_factor` is `None`
under 'extreme' and the first winning trade evaluates
`min(self.risk_factor * 2, 1000)`, raising `TypeError`; sizing under 'extreme'
also never reads the risk factor.  At the spec's own 4-bar scenario
(closes 100, 110, 90, 120, entries at bars 0 and 2, exits at bars 1 and 3)
the run crashes on the first winning exit. -/
theorem C2_extreme_first_win_type_error :
    run_backtest ⟨none, true⟩ 10000
      [⟨true, false, 100⟩, ⟨false, true, 110⟩, ⟨true, false, 90⟩, ⟨false, true, 120⟩] =
    .error .typeError := by
  norm_num [run_backtest, runBars, stepBar, stepEntry, stepExit, prev_close_ref, init_state,
    Bind.bind, Except.bind]

/-- C3.  The claim states that a backtest over an all-false signal series
returns a result with `finalBalance = initialBalance` and `profit = 0`.  The
loop indeed leaves the state untouched (the balance stays at the initial
balance), but the run then has `totalTrades = 0` and the unguarded win-ratio
division raises `ZeroDivisionError` instead of returning any result. -/
theorem C3_all_false_signals (cfg : RiskConfig) (b : ℚ) (trades : List Row)
    (hsig : ∀ r ∈ trades, r.long_entry = false ∧ r.long_exit = false) :
    runBars cfg.is_extreme trades 0 trades (init_state b cfg) = .ok (init_state b cfg) ∧
    run_backtest cfg b trades = .error .zeroDivisionError := by
  have hloop := runBars_no_signal cfg.is_extreme trades trades 0 (init_state b cfg) hsig
  refine ⟨hloop, ?_⟩
  simp only [run_backtest, Bind.bind, Except.bind, hloop]
  simp [init_state]

/-- Witness for C3 at a concrete input: three bars with no signals, 'risky'
risk, balance 500. -/
theorem C3_all_false_signals_witness :
    runBars (false : Bool) [⟨false, false, 7⟩, ⟨false, false, 8⟩, ⟨false, false, 9⟩] 0
        [⟨false, false, 7⟩, ⟨false, false, 8⟩, ⟨false, false, 9⟩]
        (init_state 500 ⟨some (1/5), false⟩) = .ok (init_state 500 ⟨some (1/5), false⟩) ∧
    run_backtest ⟨some (1/5), false⟩ 500
        [⟨false, false, 7⟩, ⟨false, false, 8⟩, ⟨false, false, 9⟩] =
      .error .zeroDivisionError :=
  C3_all_false_signals ⟨some (1/5), false⟩ 500
    [⟨false, false, 7⟩, ⟨false, false, 8⟩, ⟨false, false, 9⟩] (by decide)

/-- C6 counterexample.  The claim states that the very first bar of the series
cannot produce a same-bar exit with a defined previous-close reference.  In the
source, `trades.index[idx - 1]` at `idx = 0` is `trades.index[-1]`, the LAST
row, so a same-bar entry and exit on bar 0 executes with the last bar's close
(50) as reference: the trade completes with P&L 10*(100/50 - 1) = 10 and the
run returns a full result. -/
theorem C6_same_bar_exit_on_first_bar :
    run_backtest ⟨some (1/100), false⟩ 1000
      [⟨true, true, 100⟩, ⟨false, false, 50⟩] =
    .ok (⟨1, 1, 1, 1010, 10⟩, ⟨some (1/100), false⟩) := by
  norm_num [run_backtest, runBars, stepBar, stepEntry, stepExit, prev_close_ref, init_state,
    Bind.bind, Except.bind]

/-- C6 as amended: on an exit bar at positional index `i ≥ 1` while in a
position, the realized P&L is `positionSize * (close_i / close_(i-1) - 1)`
with the previous bar's close as reference (the balance is credited with
`positionSize + pnl` and the position cleared); at index 0 the reference
price wraps around to the close of the LAST bar instead of being undefined. -/
theorem C6_exit_reference_price (trades : List Row) (i : ℕ) (row : Row) (st : LoopState)
    (hi : i ≠ 0) (hpos : st.prev_position = true) (hx : row.long_exit = true) :
    stepExit false trades i row st =
      .ok ⟨st.balance + st.position_size +
             st.position_size * (row.close / (trades.getD (i - 1) default).close - 1),
           0, false,
           st.won_trades +
             (if st.position_size * (row.close / (trades.getD (i - 1) default).close - 1) > 0
              then 1 else 0),
           st.total_trades, st.risk_factor⟩ ∧
    prev_close_ref trades 0 = (trades.getD (trades.length - 1) default).close := by
  constructor
  · have href : prev_close_ref trades i = (trades.getD (i - 1) default).close := by
      simp [prev_close_ref, hi]
    simp only [stepExit, hx, hpos, href, Bool.and_self, if_true]
    split_ifs with hp hf
    · exact absurd hf (by decide)
    · simp [hp]
    · simp [hp]
  · simp [prev_close_ref]

/-- Witness for C6 at a concrete input: exit at index 1 of a two-bar frame
while holding a position of size 10 entered from balance 990. -/
theorem C6_exit_reference_price_witness :
    stepExit false [⟨true, false, 100⟩, ⟨false, true, 50⟩] 1 ⟨false, true, 50⟩
        ⟨990, 10, true, 0, 1, some (1/100)⟩ =
      .ok ⟨990 + 10 + 10 * ((50 : ℚ) /
             (([⟨true, false, 100⟩, ⟨false, true, 50⟩] : List Row).getD 0 default).close - 1),
           0, false,
           0 + (if (10 : ℚ) * ((50 : ℚ) /
             (([⟨true, false, 100⟩, ⟨false, true, 50⟩] : List Row).getD 0 default).close - 1) > 0
             then 1 else 0),
           1, some (1/100)⟩ ∧
    prev_close_ref [⟨true, false, 100⟩, ⟨false, true, 50⟩] 0 =
      (([⟨true, false, 100⟩, ⟨false, true, 50⟩] : List Row).getD
        (([⟨true, false, 100⟩, ⟨false, true, 50⟩] : List Row).length - 1) default).close :=
  C6_exit_reference_price [⟨true, false, 100⟩, ⟨false, true, 50⟩] 1 ⟨false, true, 50⟩
    ⟨990, 10, true, 0, 1, some (1/100)⟩ (by decide) rfl rfl

/-- C9.  Confirmed: a completed backtest run is deterministic and carries no
state into a later run.  For a configuration produced by `set_risk_strategy`,
`self.risk_factor` is unchanged by any run that returns a result (the only
reassignment, line 69, is reachable only under 'extreme' with a winning trade,
where the `None` factor raises `TypeError` before the assignment), so a second
run on the same inputs returns the identical result. -/
theorem C9_backtest_deterministic (name : String) (cfg cfg2 : RiskConfig) (b : ℚ)
    (trades : List Row) (r : BacktestResult)
    (hset : set_risk_strategy name = .ok cfg)
    (h1 : run_backtest cfg b trades = .ok (r, cfg2)) :
    run_backtest cfg2 b trades = .ok (r, cfg2) := by
  have hcond : cfg.is_extreme = false ∨ (init_state b cfg).risk_factor = none := by
    rcases set_risk_strategy_ok_cases name cfg hset with h | h | h | h <;> rw [h] <;>
      simp [init_state]
  simp only [run_backtest, Bind.bind, Except.bind] at h1 ⊢
  cases hrb : runBars cfg.is_extreme trades 0 trades (init_state b cfg) with
  | error e => rw [hrb] at h1; cases h1
  | ok st =>
    rw [hrb] at h1
    dsimp only at h1
    by_cases ht : st.total_trades = 0
    · rw [if_pos ht] at h1; cases h1
    · rw [if_neg ht] at h1
      have hrf : st.risk_factor = cfg.risk_factor :=
        runBars_rf cfg.is_extreme trades trades 0 (init_state b cfg) st hcond hrb
      injection h1 with hp
      have hc2 : cfg2 = cfg := by
        have hsnd := congrArg Prod.snd hp
        dsimp only at hsnd
        rw [← hsnd, hrf]
      rw [hc2, hrb]
      dsimp only
      rw [if_neg ht]
      rw [hc2] at hp
      rw [hp]

/-- Witness for C9 at a concrete input: 'safe' risk, balance 100, entry at
bar 0 and winning exit at bar 1. -/
theorem C9_backtest_deterministic_witness :
    run_backtest ⟨some (1/100), false⟩ 100
        [⟨true, false, 100⟩, ⟨false, true, 110⟩] =
      .ok (⟨1, 1, 1, 1001/10, 1/10⟩, ⟨some (1/100), false⟩) :=
  C9_backtest_deterministic "safe" ⟨some (1/100), false⟩ ⟨some (1/100), false⟩ 100
    [⟨true, false, 100⟩, ⟨false, true, 110⟩] ⟨1, 1, 1, 1001/10, 1/10⟩
    (by norm_num [set_risk_strategy])
    (by norm_num [run_backtest, runBars, stepBar, stepEntry, stepExit, prev_close_ref,
      init_state, Bind.bind, Except.bind])

/-- C10.  Confirmed: when an entry occurs and no exit signal ever fires, the
debited position size is never credited back.  The run returns a result whose
final balance is the initial balance minus the full entry size and whose
profit is minus the entry size — no liquidation or mark-to-market happens at
the end of the run. -/
theorem C10_open_position_not_credited (name : String) (cfg : RiskConfig) (b : ℚ)
    (trades : List Row) (hset : set_risk_strategy name = .ok cfg)
    (hx : ∀ r ∈ trades, r.long_exit = false)
    (hen : ∃ r ∈ trades, r.long_entry = true) :
    run_backtest cfg b trades =
      .ok (⟨0, 1, 0, b - entrySize cfg b, -(entrySize cfg b)⟩, cfg) := by
  have hval : cfg.is_extreme = true ∨ cfg.risk_factor ≠ none := by
    rcases set_risk_strategy_ok_cases name cfg hset with h | h | h | h <;> rw [h] <;> simp
  have hloop := runBars_first_entry cfg trades b hval trades 0 hx hen
  simp only [run_backtest, Bind.bind, Except.bind, hloop]
  norm_num [sub_sub_cancel_left]

/-- Witness for C10 at a concrete input: 'moderate' risk, balance 100, a
single bar with an entry signal and no exit anywhere. -/
theorem C10_open_position_not_credited_witness :
    run_backtest ⟨some (1/10), false⟩ 100 [⟨true, false, 50⟩] =
      .ok (⟨0, 1, 0, 100 - entrySize ⟨some (1/10), false⟩ 100,
            -(entrySize ⟨some (1/10), false⟩ 100)⟩, ⟨some (1/10), false⟩) :=
  C10_open_position_not_credited "moderate" ⟨some (1/10), false⟩ 100 [⟨true, false, 50⟩]
    (by simp [set_risk_strategy]) (by decide) (by decide)

theorem ogtB_none_right (a : Option ℚ) : ogtB a none = false := by cases a <;> rfl

theorem oltB_none_right (a : Option ℚ) : oltB a none = false := by cases a <;> rfl

/-- C4 counterexample.  The claim states that for fewer than 200 bars the
regime classification fails with `InsufficientDataError` and never returns a
regime label.  No such error exists in the source: the 200-bar rolling mean is
NaN, both NaN comparisons are False, and the `else` branch returns
'Consolidation'.  Here a 3-bar series returns a regime label. -/
theorem C4_short_series_returns_consolidation :
    calculate_market_stage [1, 2, 3] = .ok .Consolidation := by
  norm_num [calculate_market_stage, rollingMeanLastOpt, ogtB, oltB]

/-- C4 as amended: for every nonempty price series with fewer than 200 bars
the classification does not fail — the long moving average is NaN, the Bull
and Bear comparisons are both False, and the classifier returns
'Consolidation'.  (An empty series instead raises `IndexError` at
`short_ma.iloc[-1]`; no `InsufficientDataError` exists anywhere.) -/
theorem C4_short_series_stage (closes : List ℚ) (h0 : closes ≠ [])
    (h200 : closes.length < 200) :
    calculate_market_stage closes = .ok .Consolidation := by
  have hlen : closes.length ≠ 0 := fun h => h0 (List.length_eq_zero.mp h)
  have hlong : rollingMeanLastOpt 200 (closes.map some) = none := by
    rw [rollingMeanLastOpt, if_pos]
    simpa using h200
  simp [calculate_market_stage, hlen, hlong, ogtB_none_right, oltB_none_right]

/-- Witness for C4 at a concrete input: a one-bar series. -/
theorem C4_short_series_stage_witness :
    calculate_market_stage [7] = .ok .Consolidation :=
  C4_short_series_stage [7] (by decide) (by decide)

/-- C5 counterexample.  The claim states that the first bar's True Range is
undefined and excluded from the rolling ATR window.  In the source the
row-wise maximum `df[[...]].max(axis=1)` uses `skipna=True`, so on the first
bar the two NaN prev-close differences are skipped and the True Range is
high-low (here 2), a substituted value that participates in the window: over
14 constant bars the ATR is 2, while under the claim's reading (first bar
excluded) the last window would be incomplete and the ATR undefined. -/
theorem C5_first_bar_true_range_substituted :
    (true_range_col (exHighs.map some) (exLows.map some) (exCloses.map some)).getD 0 none =
      some 2 ∧
    rollingMeanLastOpt 14
      (true_range_col (exHighs.map some) (exLows.map some) (exCloses.map some)) = some 2 ∧
    rollingMeanLastOpt 14 (true_range_spec_col exHighs exLows exCloses) = none := by
  norm_num [true_range_col, high_low_col, high_pc_col, low_pc_col, shift1, osub, oabs, omax2,
    rollingMeanLastOpt, true_range_spec_col, tr_cell, exHighs, exLows, exCloses, max_def,
    abs_of_nonneg, abs_of_nonpos, Option.some_ne_none]

/-- C5 as amended: for every bar at index `i ≥ 1` the True Range is
max(high-low, |high-prevClose|, |low-prevClose|) as claimed, but the first
bar's True Range is not excluded — the skipna row maximum substitutes
high-low for it, and the cell is a defined value inside the rolling window. -/
theorem C5_true_range_values (high low close : List ℚ)
    (hh : high.length = close.length) (hl : low.length = close.length)
    (i : ℕ) (hi : i < close.length) :
    (true_range_col (high.map some) (low.map some) (close.map some)).getD i none =
      if i = 0 then some (high.getD 0 0 - low.getD 0 0)
      else some (max (high.getD i 0 - low.getD i 0)
        (max |high.getD i 0 - close.getD (i - 1) 0| |low.getD i 0 - close.getD (i - 1) 0|)) := by
  rw [List.getD_eq_getElem?_getD]
  simp only [true_range_col, high_low_col, high_pc_col, low_pc_col,
    List.getElem?_zipWith', List.getElem?_map]
  have hsh : (shift1 (close.map some))[i]? =
      if i = 0 then some none else (close[i-1]?).map some := by
    rw [shift1, List.getElem?_take, if_pos (by simpa using hi)]
    cases i with
    | zero => simp
    | succ j => simp
  rw [hsh]
  have hiH : i < high.length := by omega
  have hiL : i < low.length := by omega
  rw [List.getElem?_eq_getElem hiH, List.getElem?_eq_getElem hiL]
  cases i with
  | zero =>
    simp only [if_pos rfl, osub, oabs, omax2, Option.map_some, Option.bind_some]
    simp [osub, oabs, omax2, List.getD_eq_getElem, hiH, hiL]
  | succ j =>
    have hjC : j < close.length := by omega
    simp only [Nat.add_sub_cancel]
    rw [List.getElem?_eq_getElem hjC]
    simp [osub, oabs, omax2, List.getD_eq_getElem, hiH, hiL, hjC, max_assoc]

/-- Witness for C5 at a concrete input: a two-bar series evaluated at index 1. -/
theorem C5_true_range_values_witness :
    (true_range_col ([3, 5].map some) ([1, 2].map some) ([2, 4].map some)).getD 1 none =
      if (1 : ℕ) = 0 then some (([3, 5] : List ℚ).getD 0 0 - ([1, 2] : List ℚ).getD 0 0)
      else some (max (([3, 5] : List ℚ).getD 1 0 - ([1, 2] : List ℚ).getD 1 0)
        (max |([3, 5] : List ℚ).getD 1 0 - ([2, 4] : List ℚ).getD 0 0|
             |([1, 2] : List ℚ).getD 1 0 - ([2, 4] : List ℚ).getD 0 0|)) :=
  C5_true_range_values [3, 5] [1, 2] [2, 4] rfl rfl 1 (by decide)

theorem setCol_append (df : Df) (c : String) (v : Col) (h : c ∉ colNames df) :
    setCol df c v = df ++ [(c, v)] := by
  simp [setCol, h]

theorem colNames_setCol (df : Df) (c : String) (v : Col) :
    colNames (setCol df c v) =
      if c ∈ colNames df then colNames df else colNames df ++ [c] := by
  unfold setCol colNames
  split_ifs with hmem
  · rw [List.map_map]
    apply List.map_congr_left
    intro p _
    by_cases hp : p.1 = c
    · simp [hp]
    · simp [hp]
  · simp

theorem colNames_append (a b : Df) : colNames (a ++ b) = colNames a ++ colNames b :=
  List.map_append _ a b

theorem notMem_colNames_append (name : String) (a l : Df) (ha : name ∉ colNames a)
    (hl : ∀ p ∈ l, p.1 ≠ name) : name ∉ colNames (a ++ l) := by
  intro hmem
  rw [colNames_append] at hmem
  rcases List.mem_append.mp hmem with hc | hc
  · exact ha hc
  · rcases List.mem_map.mp hc with ⟨p, hp, hpe⟩
    exact hl p hp hpe

theorem find?_map_replace (df : Df) (c : String) (v : Col) (h : c ∈ colNames df) :
    (df.map (fun p => if p.1 = c then (c, v) else p)).find? (fun p => p.1 = c) =
      some (c, v) := by
  induction df with
  | nil => simp [colNames] at h
  | cons p rest ih =>
    by_cases hp : p.1 = c
    · simp [List.find?, hp]
    · have hrest : c ∈ colNames rest := by
        rcases List.mem_cons.mp h with hc | hc
        · exact absurd hc.symm hp
        · exact hc
      simp only [List.map_cons, List.find?, if_neg hp, decide_eq_false hp]
      exact ih hrest

theorem find?_append_fresh (df : Df) (c : String) (v : Col) (h : c ∉ colNames df) :
    ((df ++ [(c, v)]).find? (fun p => p.1 = c)) = some (c, v) := by
  induction df with
  | nil => simp [List.find?]
  | cons p rest ih =>
    have hp : ¬ p.1 = c := by
      intro hc
      exact h (by simp [colNames, hc])
    simp only [List.cons_append, List.find?, decide_eq_false hp]
    exact ih (fun hc => h (List.mem_cons_of_mem _ hc))

theorem getCol_setCol_self (df : Df) (c : String) (v : Col) :
    getCol (setCol df c v) c = v := by
  unfold setCol getCol
  split_ifs with hmem
  · rw [find?_map_replace df c v hmem]
  · rw [find?_append_fresh df c v hmem]

theorem dropCols_frame (df : Df) (v1 v2 v3 v4 v5 : Col)
    (hfresh : ∀ c ∈ volTemps, c ∉ colNames df) :
    dropCols (setCol (setCol (setCol (setCol (setCol df "previous_close" v1)
      "high_low" v2) "high_prev_close" v3) "low_prev_close" v4) "true_range" v5)
      volTemps = df := by
  have h1 : "previous_close" ∉ colNames df := hfresh _ (by decide)
  have h2 : "high_low" ∉ colNames df := hfresh _ (by decide)
  have h3 : "high_prev_close" ∉ colNames df := hfresh _ (by decide)
  have h4 : "low_prev_close" ∉ colNames df := hfresh _ (by decide)
  have h5 : "true_range" ∉ colNames df := hfresh _ (by decide)
  rw [setCol_append df _ v1 h1]
  rw [setCol_append _ _ v2 (notMem_colNames_append _ _ _ h2 (by simp))]
  rw [setCol_append _ _ v3 (notMem_colNames_append _ _ _
        (notMem_colNames_append _ _ _ h3 (by simp)) (by simp))]
  rw [setCol_append _ _ v4 (notMem_colNames_append _ _ _ (notMem_colNames_append _ _ _
        (notMem_colNames_append _ _ _ h4 (by simp)) (by simp)) (by simp))]
  rw [setCol_append _ _ v5 (notMem_colNames_append _ _ _ (notMem_colNames_append _ _ _
        (notMem_colNames_append _ _ _ (notMem_colNames_append _ _ _ h5 (by simp)) (by simp))
        (by simp)) (by simp))]
  have hkeep : ∀ p ∈ df, p.1 ∉ volTemps := by
    intro p hp hmem
    exact hfresh p.1 hmem (List.mem_map_of_mem Prod.fst hp)
  simp only [dropCols, List.append_assoc, List.filter_append]
  rw [List.filter_eq_self.mpr (fun p hp => by simpa using hkeep p hp)]
  simp [volTemps]

theorem bull_exit_row_eq (c s e r ub k d res : Option ℚ) :
    bull_exit_row c s e r ub k d res =
      (oltB c s || oltB c e || ogtB r (some 70) || ogtB c ub ||
        (ogtB k (some 80) && ogtB d (some 80)) || ogtB c res) := by
  simp [bull_exit_row, Bool.or_assoc]

theorem bull_strategy_colNames (ta : Talib) (df : Df)
    (hfresh : ∀ c ∈ bullCols, c ∉ colNames df) :
    colNames (bull_strategy ta df) = colNames df ++ bullCols := by
  have h1 : "SMA" ∉ colNames df := hfresh _ (by decide)
  have h2 : "EMA" ∉ colNames df := hfresh _ (by decide)
  have h3 : "RSI" ∉ colNames df := hfresh _ (by decide)
  have h4 : "upper_bb" ∉ colNames df := hfresh _ (by decide)
  have h5 : "middle_bb" ∉ colNames df := hfresh _ (by decide)
  have h6 : "lower_bb" ∉ colNames df := hfresh _ (by decide)
  have h7 : "slowk" ∉ colNames df := hfresh _ (by decide)
  have h8 : "slowd" ∉ colNames df := hfresh _ (by decide)
  have h9 : "support" ∉ colNames df := hfresh _ (by decide)
  have h10 : "resistance" ∉ colNames df := hfresh _ (by decide)
  have h11 : "long_entry" ∉ colNames df := hfresh _ (by decide)
  have h12 : "long_exit" ∉ colNames df := hfresh _ (by decide)
  simp only [bull_strategy]
  simp [colNames_setCol, h1, h2, h3, h4, h5, h6, h7, h8, h9, h10, h11, h12,
    bullCols, List.append_assoc]

/-- C7 counterexample.  The claim states that derived indicator columns are
appended only to a working copy and never to the caller's original data.  In
the source `bull_strategy` writes `data['SMA'] = ...` (and eleven more
columns) directly into the DataFrame it received: the caller's frame after
the call (the returned frame, by the in-place-mutation embedding) carries the
new columns and differs from the original. -/
theorem C7_bull_strategy_mutates_caller :
    bull_strategy talibId ohlcDf ≠ ohlcDf ∧
    "SMA" ∈ colNames (bull_strategy talibId ohlcDf) ∧
    "SMA" ∉ colNames ohlcDf := by
  have h3 : "SMA" ∉ colNames ohlcDf := by decide
  have h2 : "SMA" ∈ colNames (bull_strategy talibId ohlcDf) := by
    rw [bull_strategy_colNames talibId ohlcDf (by decide)]
    decide
  exact ⟨fun h => h3 (h ▸ h2), h2, h3⟩

/-- C7 as amended: the volatility computation leaves the caller's frame
unchanged — its five temporary columns are appended and then dropped, none
leaks (for a frame with nonempty high/low/close columns and no column named
like a temporary) — but the Bull strategy appends its twelve indicator and
signal columns directly to the caller's frame, not to a copy. -/
theorem C7_frame_effects :
    (∀ df : Df, (∀ c ∈ volTemps, c ∉ colNames df) →
      0 < (getCol df "high").length → 0 < (getCol df "low").length →
      0 < (getCol df "close").length →
      (calculate_volatility df).2 = df) ∧
    (∀ (ta : Talib) (df : Df), (∀ c ∈ bullCols, c ∉ colNames df) →
      colNames (bull_strategy ta df) = colNames df ++ bullCols) := by
  constructor
  · intro df hfresh hH hL hC
    have hlen : ¬((true_range_col (getCol df "high") (getCol df "low")
        (getCol df "close")).length = 0) := by
      simp only [true_range_col, high_low_col, high_pc_col, low_pc_col, List.length_zipWith,
        List.length_map, shift1, List.length_take, List.length_cons]
      omega
    simp only [calculate_volatility]
    rw [if_neg hlen]
    exact dropCols_frame df _ _ _ _ _ hfresh
  · exact fun ta df hfresh => bull_strategy_colNames ta df hfresh

/-- Witness for C7 at a concrete input: the one-bar OHLC frame. -/
theorem C7_frame_effects_witness :
    (calculate_volatility ohlcDf).2 = ohlcDf ∧
    colNames (bull_strategy talibId ohlcDf) = colNames ohlcDf ++ bullCols :=
  ⟨C7_frame_effects.1 ohlcDf (by decide) (by decide) (by decide) (by decide),
   C7_frame_effects.2 talibId ohlcDf (by decide)⟩

/-- C8.  Confirmed: the Bull-strategy exit signal at bar `t` is exactly
close < SMA or close < EMA or RSI > 70 or close > upperBB or
(slowK > 80 and slowD > 80) or close > resistance, with the conjunction of
the two stochastic comparisons forming a single disjunct — Python's `&`
binds tighter than `|`, matching the claimed grouping. -/
theorem C8_exit_signal_grouping (ta : Talib) (df : Df) (t : ℕ)
    (ht : t < (getCol df "close").length) :
    (getCol (bull_strategy ta df) "long_exit").getD t none =
      ofBool (oltB ((getCol df "close").getD t none)
          ((ta.sma (getCol df "close")).getD t none) ||
        oltB ((getCol df "close").getD t none) ((ta.ema (getCol df "close")).getD t none) ||
        ogtB ((ta.rsi (getCol df "close")).getD t none) (some 70) ||
        ogtB ((getCol df "close").getD t none)
          ((ta.bbands (getCol df "close")).1.getD t none) ||
        (ogtB ((ta.stoch (getCol df "high") (getCol df "low")
            (getCol df "close")).1.getD t none) (some 80) &&
         ogtB ((ta.stoch (getCol df "high") (getCol df "low")
            (getCol df "close")).2.getD t none) (some 80)) ||
        ogtB ((getCol df "close").getD t none)
          ((calculate_support_resistance (getCol df "high") (getCol df "low")
            (getCol df "close")).2.getD t none)) := by
  simp only [bull_strategy]
  rw [getCol_setCol_self]
  simp [List.getD_eq_getElem?_getD, List.getElem?_map, List.getElem?_range, ht,
    bull_exit_row_eq]

/-- Witness for C8 at a concrete input: the identity indicator library on the
one-bar OHLC frame, evaluated at bar 0. -/
theorem C8_exit_signal_grouping_witness :
    (getCol (bull_strategy talibId ohlcDf) "long_exit").getD 0 none =
      ofBool (oltB ((getCol ohlcDf "close").getD 0 none)
          ((talibId.sma (getCol ohlcDf "close")).getD 0 none) ||
        oltB ((getCol ohlcDf "close").getD 0 none)
          ((talibId.ema (getCol ohlcDf "close")).getD 0 none) ||
        ogtB ((talibId.rsi (getCol ohlcDf "close")).getD 0 none) (some 70) ||
        ogtB ((getCol ohlcDf "close").getD 0 none)
          ((talibId.bbands (getCol ohlcDf "close")).1.getD 0 none) ||
        (ogtB ((talibId.stoch (getCol ohlcDf "high") (getCol ohlcDf "low")
            (getCol ohlcDf "close")).1.getD 0 none) (some 80) &&
         ogtB ((talibId.stoch (getCol ohlcDf "high") (getCol ohlcDf "low")
            (getCol ohlcDf "close")).2.getD 0 none) (some 80)) ||
        ogtB ((getCol ohlcDf "close").getD 0 none)
          ((calculate_support_resistance (getCol ohlcDf "high") (getCol ohlcDf "low")
            (getCol ohlcDf "close")).2.getD 0 none)) :=
  C8_exit_signal_grouping talibId ohlcDf 0 (by decide)
